import Mathlib

/-!
Shallow embedding of the sovereign memory system (memory-system.py) and
proofs of the specification claims about it.

Modelling conventions:
- Python dicts become association lists `List (String × α)` that keep
  insertion order; assignment replaces the first binding in place and
  otherwise appends, matching CPython dict semantics.
- Arbitrary Python values (record metadata) become the inductive `PyVal`.
- `datetime` objects become `Nat` tick counts supplied by the caller as a
  `now` parameter; `isoformat` / `fromisoformat` become an injective
  decimal rendering and its parser.
- The backing file becomes an explicit value: `none` when the file does
  not exist, `some data` for a well-formed serialized store.  A failing
  disk write is modelled by a boolean `writeOk` parameter; the raised
  OSError becomes the `PersistError.persistFailed` value of an `Except`.
-/

set_option autoImplicit false

namespace MemorySystem

/-- A Python runtime value as it can appear in record metadata. -/
inductive PyVal where
  | str (s : String)
  | bool (b : Bool)
  | int (n : Int)
  | none
  | list (xs : List PyVal)
  | dict (xs : List (String × PyVal))

/-- Python dict lookup `d.get(k)`: the first binding of the key. -/
def dictGet {α : Type} (k : String) : List (String × α) → Option α
  | [] => Option.none
  | (k0, v0) :: rest => if k0 = k then some v0 else dictGet k rest

/-- Python dict assignment `d[k] = v`: replace the first binding in place,
append when the key is absent. -/
def dictSet {α : Type} (k : String) (v : α) : List (String × α) → List (String × α)
  | [] => [(k, v)]
  | (k0, v0) :: rest => if k0 = k then (k, v) :: rest else (k0, v0) :: dictSet k v rest

/-- One stored memory record: the dict
`{"content": ..., "metadata": ..., "timestamp": ...}` built by
`MemoryLibrary.store`. -/
structure Memory where
  content : String
  metadata : List (String × PyVal)
  timestamp : Nat

/-- The `MemoryLibrary.memories` dict, insertion ordered. -/
abbrev MemDict := List (String × Memory)

namespace MemoryLibrary

/-- `MemoryLibrary.store`: insert or overwrite under the id, stamping the
current time. -/
def store (memories : MemDict) (memory_id content : String)
    (metadata : List (String × PyVal)) (now : Nat) : MemDict :=
  dictSet memory_id { content := content, metadata := metadata, timestamp := now } memories

/-- `MemoryLibrary.retrieve`: `self.memories.get(memory_id)`. -/
def retrieve (memories : MemDict) (memory_id : String) : Option Memory :=
  dictGet memory_id memories

/-- `MemoryLibrary.list_all_ids`: `list(self.memories.keys())`. -/
def list_all_ids (memories : MemDict) : List String :=
  memories.map (fun p => p.1)

end MemoryLibrary

/-- The record as the plain Python dict that `MemoryLibrarian.decide_action`
receives from `load_memory` (a datetime is rendered as its tick count). -/
def memoryToDict (m : Memory) : List (String × PyVal) :=
  [("content", PyVal.str m.content),
   ("metadata", PyVal.dict m.metadata),
   ("timestamp", PyVal.int (Int.ofNat m.timestamp))]

/-- Python `value == s` for a string literal `s`: only an equal string
compares equal, every other value (or a missing one) compares unequal. -/
def optEqStr (o : Option PyVal) (s : String) : Bool :=
  match o with
  | some (PyVal.str t) => t == s
  | _ => false

/-- Python `value is True`: only the boolean True itself passes, never a
truthy value such as the int 1 or the string "yes". -/
def optIsTrue (o : Option PyVal) : Bool :=
  match o with
  | some (PyVal.bool b) => b
  | _ => false

namespace MemoryLibrarian

/-- `MemoryLibrarian.decide_action`: KEEP when `metadata.get("type")` equals
the string `"preference"` or `metadata.get("important") is True`; DISCARD
otherwise, including a missing or non-dict metadata field. -/
def decide_action (memory_data : List (String × PyVal)) : String :=
  match (if memory_data.isEmpty then PyVal.dict []
         else (dictGet "metadata" memory_data).getD (PyVal.dict [])) with
  | PyVal.dict d =>
    if optEqStr (dictGet "type" d) "preference" then "KEEP"
    else if optIsTrue (dictGet "important" d) then "KEEP"
    else "DISCARD"
  | _ => "DISCARD"

/-- `MemoryLibrarian.purge_unimportant`: iterate all ids, decide each, and
print a verdict line; the library state is returned untouched because the
loop body only reads. -/
def purge_unimportant (memories : MemDict) : MemDict × List String :=
  (memories,
    (MemoryLibrary.list_all_ids memories).map (fun memory_id =>
      let memory := MemoryLibrary.retrieve memories memory_id
      let decision := decide_action (match memory with
        | some m => memoryToDict m
        | Option.none => [])
      let verdict := if decision = "KEEP" then "kept" else "discarded"
      "Memory " ++ memory_id ++ " should be " ++ verdict ++ "."))

end MemoryLibrarian

/-- Python `needle` being a prefix of `haystack`, over character lists. -/
def listStartsWith : List Char → List Char → Bool
  | [], _ => true
  | _ :: _, [] => false
  | c :: cs, d :: ds => c == d && listStartsWith cs ds

/-- The Python substring test `needle in haystack`, over character lists. -/
def containsSub (needle : List Char) : List Char → Bool
  | [] => listStartsWith needle []
  | c :: cs => listStartsWith needle (c :: cs) || containsSub needle cs

/-- Python `s.lower()` as a character list (ASCII lowering suffices for the
contents this system stores). -/
def pyLower (s : String) : List Char := s.data.map Char.toLower

/-- Python `s.upper()` (ASCII raising suffices for the decision strings). -/
def pyUpper (s : String) : String := String.mk (s.data.map Char.toUpper)

namespace SearchableMemoryArchiver

/-- `SearchableMemoryArchiver.search_memories`: walk every id, retrieve it,
and keep the records whose lowered content contains the lowered query. -/
def search_memories (memories : MemorySystem.MemDict) (query : String) : List Memory :=
  (MemoryLibrary.list_all_ids memories).filterMap (fun memory_id =>
    match MemoryLibrary.retrieve memories memory_id with
    | some memory =>
      if containsSub (pyLower query) (pyLower memory.content) then some memory
      else Option.none
    | Option.none => Option.none)

end SearchableMemoryArchiver

/-- Decimal digits of a tick count, least significant first; the fuel is an
upper bound on the value, so the recursion is structural. -/
def decimalDigitsAux : Nat → Nat → List Nat
  | 0, _ => []
  | fuel + 1, n => if n = 0 then [] else n % 10 :: decimalDigitsAux fuel (n / 10)

/-- One decimal digit as a character. -/
def digitToChar (d : Nat) : Char :=
  match d with
  | 0 => '0' | 1 => '1' | 2 => '2' | 3 => '3' | 4 => '4'
  | 5 => '5' | 6 => '6' | 7 => '7' | 8 => '8' | _ => '9'

/-- One character back to its decimal digit. -/
def charToDigit (c : Char) : Nat :=
  match c with
  | '0' => 0 | '1' => 1 | '2' => 2 | '3' => 3 | '4' => 4
  | '5' => 5 | '6' => 6 | '7' => 7 | '8' => 8 | _ => 9

/-- `datetime.isoformat`: an injective textual rendering of the tick count
(decimal digits, most significant first). -/
def isoformat (t : Nat) : String :=
  String.mk ((decimalDigitsAux (t + 1) t).reverse.map digitToChar)

/-- Recombine least-significant-first decimal digits. -/
def fromDigits : List Nat → Nat
  | [] => 0
  | d :: ds => d + 10 * fromDigits ds

/-- `datetime.fromisoformat`: parse the rendering back to the tick count. -/
def fromisoformat (s : String) : Nat :=
  fromDigits ((s.data.map charToDigit).reverse)

/-- One serialized record as written by `save_to_disk`: content and metadata
verbatim (they are JSON shaped), the timestamp as its isoformat string. -/
structure SavedMemory where
  content : String
  metadata : List (String × PyVal)
  timestamp : String

/-- The backing file when present and well formed. -/
abbrev FileData := List (String × SavedMemory)

namespace PersistentMemoryLibrary

/-- `PersistentMemoryLibrary.save_to_disk`: serialize the whole store,
rendering each timestamp with isoformat. -/
def save_to_disk (memories : MemDict) : FileData :=
  memories.map (fun p =>
    (p.1, { content := p.2.content, metadata := p.2.metadata,
            timestamp := isoformat p.2.timestamp }))

/-- `PersistentMemoryLibrary.load_from_disk`: a missing file leaves the store
empty; otherwise every timestamp string is parsed back in place. -/
def load_from_disk (file : Option FileData) : MemDict :=
  match file with
  | Option.none => []
  | some data =>
    data.map (fun p =>
      (p.1, { content := p.2.content, metadata := p.2.metadata,
              timestamp := fromisoformat p.2.timestamp }))

/-- The OSError propagating out of a failed `open` or `json.dump`. -/
inductive PersistError where
  | persistFailed

/-- `PersistentMemoryLibrary.store`: mutate the in-memory dict first, then
write the file; `writeOk` says whether the write succeeds, and a failure
escapes as `persistFailed` after the mutation already happened. -/
def store (memories : MemDict) (writeOk : Bool) (memory_id content : String)
    (metadata : List (String × PyVal)) (now : Nat) :
    MemDict × Except PersistError FileData :=
  let memories2 := MemoryLibrary.store memories memory_id content metadata now
  (memories2,
    if writeOk then Except.ok (save_to_disk memories2)
    else Except.error PersistError.persistFailed)

end PersistentMemoryLibrary

namespace SimpleAIMemoryInterface

/-- `SimpleAIMemoryInterface.ai_save_memory`: derive the id from the current
store size and store with the autonomous metadata. -/
def ai_save_memory (memories : MemDict) (content memory_type : String)
    (important : Bool) (now : Nat) : MemDict × String :=
  let memory_id := "memory_" ++ toString (memories.length + 1)
  let metadata := [("type", PyVal.str memory_type),
                   ("important", PyVal.bool important),
                   ("source", PyVal.str "ai_autonomous")]
  (MemoryLibrary.store memories memory_id content metadata now, memory_id)

end SimpleAIMemoryInterface

/-- The fixed platform configuration dict of `PlatformMemoryManager`,
restricted to the names (the file paths feed the per-platform stores, which
are modelled by the per-platform dict below). -/
def platforms : List (String × String) :=
  [("chatgpt", "ChatGPT"), ("claude", "Claude"), ("gemini", "Gemini"),
   ("deepseek", "DeepSeek"), ("perplexity", "Perplexity")]

/-- `ValueError / KeyError` raised for an unregistered platform id. -/
inductive PlatformError where
  | unknownPlatform (platform_id : String)

namespace PlatformMemoryManager

/-- `PlatformMemoryManager.save_platform_memory`: look the platform up
(`get_platform_memory` raises for an unknown id) and let its own interface
store the record; only that platform entry is rebound. -/
def save_platform_memory (platform_memories : List (String × MemDict))
    (platform_id content memory_type : String) (important : Bool) (now : Nat) :
    Except PlatformError (List (String × MemDict) × String) :=
  match dictGet platform_id platform_memories with
  | Option.none => Except.error (PlatformError.unknownPlatform platform_id)
  | some memories =>
    let saved := SimpleAIMemoryInterface.ai_save_memory memories content memory_type important now
    Except.ok (dictSet platform_id saved.1 platform_memories, saved.2)

end PlatformMemoryManager

/-- One suggestion dict as built by `human_suggest_memory` and mutated by
`ai_decide_on_suggestion`. -/
structure Suggestion where
  suggestion_id : String
  content : String
  reason : Option String
  urgency : String
  timestamp : String
  status : String
  decided_by : Option String
  decision_reason : Option String

/-- Rebind the first list element satisfying the test, the way mutating the
dict returned by `next(s for s in ... if ...)` updates it inside the list. -/
def updateFirst {α : Type} (p : α → Bool) (f : α → α) : List α → List α
  | [] => []
  | x :: xs => if p x then f x :: xs else x :: updateFirst p f xs

/-- A Python optional string as a metadata value (`None` or the string). -/
def optStr : Option String → PyVal
  | Option.none => PyVal.none
  | some s => PyVal.str s

/-- What `ai_decide_on_suggestion` reports back. -/
inductive DecideResult where
  | suggestionNotFound
  | keyError (platform_id : String)
  | accepted (memory_id : String)
  | rejected

namespace SovereignCollaborationSystem

/-- `SovereignCollaborationSystem.human_suggest_memory`: append a fresh
pending suggestion whose id is derived from the current log length. -/
def human_suggest_memory (pending_suggestions : List Suggestion)
    (content : String) (reason : Option String) (urgency : String)
    (now_iso : String) : List Suggestion × String :=
  let suggestion_id := "suggest_" ++ toString (pending_suggestions.length + 1)
  (pending_suggestions ++
    [{ suggestion_id := suggestion_id, content := content, reason := reason,
       urgency := urgency, timestamp := now_iso, status := "pending",
       decided_by := Option.none, decision_reason := Option.none }],
   suggestion_id)

/-- `SovereignCollaborationSystem.ai_decide_on_suggestion`: find the
suggestion by id (error when absent), read the platform name (KeyError when
the platform is unregistered), then either store the content into the shared
library under a size-derived id and mark the suggestion accepted, or mark it
rejected; there is no check of the current status. -/
def ai_decide_on_suggestion (pending_suggestions : List Suggestion)
    (shared_memories : MemDict) (platform_id suggestion_id decision : String)
    (reason : Option String) (now : Nat) :
    List Suggestion × MemDict × DecideResult :=
  match pending_suggestions.find? (fun s => s.suggestion_id == suggestion_id) with
  | Option.none => (pending_suggestions, shared_memories, DecideResult.suggestionNotFound)
  | some suggestion =>
    match dictGet platform_id platforms with
    | Option.none => (pending_suggestions, shared_memories, DecideResult.keyError platform_id)
    | some _ =>
      if pyUpper decision = "ACCEPT" then
        let memory_id := "shared_" ++ toString (shared_memories.length + 1)
        let metadata := [("type", PyVal.str "collaboration"),
                         ("suggested_by", PyVal.str "human"),
                         ("accepted_by", PyVal.str platform_id),
                         ("acceptance_reason", optStr reason),
                         ("original_suggestion_id", PyVal.str suggestion_id)]
        let shared2 := MemoryLibrary.store shared_memories memory_id suggestion.content metadata now
        let suggestions2 := updateFirst (fun s => s.suggestion_id == suggestion_id)
          (fun s => { s with status := "accepted", decided_by := some platform_id,
                             decision_reason := reason }) pending_suggestions
        (suggestions2, shared2, DecideResult.accepted memory_id)
      else
        let suggestions2 := updateFirst (fun s => s.suggestion_id == suggestion_id)
          (fun s => { s with status := "rejected", decided_by := some platform_id,
                             decision_reason := reason }) pending_suggestions
        (suggestions2, shared_memories, DecideResult.rejected)

end SovereignCollaborationSystem

/-! ### Association list lemmas -/

theorem dictGet_dictSet_self {α : Type} (k : String) (v : α) (d : List (String × α)) :
    dictGet k (dictSet k v d) = some v := by
  induction d with
  | nil => simp [dictSet, dictGet]
  | cons p rest ih =>
    obtain ⟨k0, v0⟩ := p
    by_cases h : k0 = k
    · simp [dictSet, dictGet, h]
    · simp [dictSet, dictGet, h, ih]

theorem dictGet_dictSet_ne {α : Type} (k k2 : String) (v : α) (d : List (String × α))
    (h : k2 ≠ k) : dictGet k2 (dictSet k v d) = dictGet k2 d := by
  have hne : ¬k = k2 := fun e => h e.symm
  induction d with
  | nil => simp [dictSet, dictGet, hne]
  | cons p rest ih =>
    obtain ⟨k0, v0⟩ := p
    by_cases h0 : k0 = k
    · subst h0
      simp [dictSet, dictGet, hne]
    · simp only [dictSet, if_neg h0, dictGet]
      by_cases h2 : k0 = k2
      · simp [h2]
      · simp [h2, ih]

theorem dictSet_eq_append {α : Type} (k : String) (v : α) (d : List (String × α))
    (h : ∀ p ∈ d, p.1 ≠ k) : dictSet k v d = d ++ [(k, v)] := by
  induction d with
  | nil => rfl
  | cons p rest ih =>
    obtain ⟨k0, v0⟩ := p
    have hk0 : k0 ≠ k := h (k0, v0) (List.mem_cons_self _ _)
    simp only [dictSet, if_neg hk0, List.cons_append, List.cons.injEq, true_and]
    exact ih (fun p hp => h p (List.mem_cons_of_mem _ hp))

/-! ### Timestamp serialization round trip -/

theorem fromDigits_decimalDigitsAux (fuel : Nat) :
    ∀ n : Nat, n ≤ fuel → fromDigits (decimalDigitsAux fuel n) = n := by
  induction fuel with
  | zero =>
    intro n hn
    have : n = 0 := Nat.le_zero.mp hn
    simp [this, decimalDigitsAux, fromDigits]
  | succ fuel ih =>
    intro n hn
    by_cases h0 : n = 0
    · simp [h0, decimalDigitsAux, fromDigits]
    · have hdiv : n / 10 ≤ fuel := by
        have : n / 10 < n := Nat.div_lt_self (Nat.pos_of_ne_zero h0) (by omega)
        omega
      simp only [decimalDigitsAux, if_neg h0, fromDigits, ih _ hdiv]
      exact Nat.mod_add_div n 10

theorem decimalDigitsAux_lt_ten (fuel : Nat) :
    ∀ n : Nat, ∀ d ∈ decimalDigitsAux fuel n, d < 10 := by
  induction fuel with
  | zero => intro n d hd; simp [decimalDigitsAux] at hd
  | succ fuel ih =>
    intro n d hd
    by_cases h0 : n = 0
    · simp [h0, decimalDigitsAux] at hd
    · simp only [decimalDigitsAux, if_neg h0, List.mem_cons] at hd
      rcases hd with hd | hd
      · subst hd
        exact Nat.mod_lt n (by omega)
      · exact ih (n / 10) d hd

theorem charToDigit_digitToChar (d : Nat) (h : d < 10) :
    charToDigit (digitToChar d) = d := by
  interval_cases d <;> rfl

theorem fromisoformat_isoformat (t : Nat) : fromisoformat (isoformat t) = t := by
  unfold fromisoformat isoformat
  simp only [String.data]
  rw [List.map_map, List.map_reverse, List.reverse_reverse]
  have hmap : (decimalDigitsAux (t + 1) t).map (charToDigit ∘ digitToChar) =
      decimalDigitsAux (t + 1) t := by
    rw [List.map_congr_left (g := id), List.map_id]
    intro d hd
    exact charToDigit_digitToChar d (decimalDigitsAux_lt_ten (t + 1) t d hd)
  rw [hmap]
  exact fromDigits_decimalDigitsAux (t + 1) t (Nat.le_succ t)

theorem load_from_disk_save_to_disk (memories : MemDict) :
    PersistentMemoryLibrary.load_from_disk
      (some (PersistentMemoryLibrary.save_to_disk memories)) = memories := by
  have h1 : PersistentMemoryLibrary.load_from_disk
      (some (PersistentMemoryLibrary.save_to_disk memories)) =
      (PersistentMemoryLibrary.save_to_disk memories).map (fun p =>
        (p.1, { content := p.2.content, metadata := p.2.metadata,
                timestamp := fromisoformat p.2.timestamp })) := rfl
  rw [h1]
  unfold PersistentMemoryLibrary.save_to_disk
  rw [List.map_map]
  rw [List.map_congr_left (g := id), List.map_id]
  intro p _
  obtain ⟨k, m⟩ := p
  simp [Function.comp, fromisoformat_isoformat]

/-! ### Search lemmas -/

theorem retrieve_cons_ne (k : String) (m : Memory) (rest : MemDict) (memory_id : String)
    (h : k ≠ memory_id) :
    MemoryLibrary.retrieve ((k, m) :: rest) memory_id = MemoryLibrary.retrieve rest memory_id := by
  simp [MemoryLibrary.retrieve, dictGet, h]

theorem search_memories_eq_filter (memories : MemDict) (query : String)
    (h : (memories.map (fun p => p.1)).Nodup) :
    SearchableMemoryArchiver.search_memories memories query =
      (memories.map (fun p => p.2)).filter
        (fun m => containsSub (pyLower query) (pyLower m.content)) := by
  induction memories with
  | nil => rfl
  | cons p rest ih =>
    obtain ⟨k, m⟩ := p
    simp only [List.map_cons, List.nodup_cons, List.mem_map] at h
    obtain ⟨hk, hrest⟩ := h
    have hne : ∀ memory_id ∈ rest.map (fun p => p.1), k ≠ memory_id := by
      intro memory_id hid e
      subst e
      simp only [List.mem_map] at hid
      exact hk hid
    have hhead : MemoryLibrary.retrieve ((k, m) :: rest) k = some m := by
      simp [MemoryLibrary.retrieve, dictGet]
    have htail : (rest.map (fun p => p.1)).filterMap (fun memory_id =>
        match MemoryLibrary.retrieve ((k, m) :: rest) memory_id with
        | some memory =>
          if containsSub (pyLower query) (pyLower memory.content) then some memory
          else Option.none
        | Option.none => Option.none) =
        SearchableMemoryArchiver.search_memories rest query := by
      apply List.filterMap_congr
      intro memory_id hid
      rw [retrieve_cons_ne k m rest memory_id (hne memory_id hid)]
    have ih2 := ih hrest
    simp only [SearchableMemoryArchiver.search_memories, MemoryLibrary.list_all_ids] at ih2 htail
    simp only [SearchableMemoryArchiver.search_memories, MemoryLibrary.list_all_ids,
      List.map_cons, List.filterMap_cons, hhead]
    rw [htail, ih2]
    by_cases hc : containsSub (pyLower query) (pyLower m.content) <;>
      simp [hc, List.filter_cons]

theorem containsSub_nil (l : List Char) : containsSub [] l = true := by
  cases l <;> rfl

theorem listStartsWith_iff (needle haystack : List Char) :
    listStartsWith needle haystack = true ↔ needle <+: haystack := by
  induction needle generalizing haystack with
  | nil => simp [listStartsWith, List.nil_prefix]
  | cons c cs ih =>
    cases haystack with
    | nil => simp [listStartsWith]
    | cons d ds => simp [listStartsWith, List.cons_prefix_cons, ih, And.comm]

theorem containsSub_iff_substring (needle haystack : List Char) :
    containsSub needle haystack = true ↔ needle <:+: haystack := by
  induction haystack with
  | nil => simp [containsSub, listStartsWith_iff, List.prefix_nil, List.infix_nil]
  | cons d ds ih => simp [containsSub, listStartsWith_iff, ih, List.infix_cons_iff]

theorem containsSub_eq_decide (needle haystack : List Char) :
    containsSub needle haystack = decide (needle <:+: haystack) := by
  cases hcs : containsSub needle haystack with
  | false =>
    have hni : ¬needle <:+: haystack := by
      intro hp
      have := (containsSub_iff_substring needle haystack).mpr hp
      rw [hcs] at this
      exact Bool.noConfusion this
    simp [hni]
  | true => simp [(containsSub_iff_substring needle haystack).mp hcs]

/-! ### Classifier comparison lemmas -/

theorem optEqStr_iff (o : Option PyVal) (s : String) :
    optEqStr o s = true ↔ o = some (PyVal.str s) := by
  cases o with
  | none => simp [optEqStr]
  | some v => cases v <;> simp [optEqStr]

theorem optIsTrue_iff (o : Option PyVal) :
    optIsTrue o = true ↔ o = some (PyVal.bool true) := by
  cases o with
  | none => simp [optIsTrue]
  | some v => cases v <;> simp [optIsTrue]

/-! ### Suggestion list update lemma -/

theorem find?_updateFirst {α : Type} (p : α → Bool) (f : α → α) (l : List α)
    (hf : ∀ x, p (f x) = p x) :
    (updateFirst p f l).find? p = (l.find? p).map f := by
  induction l with
  | nil => rfl
  | cons x xs ih =>
    by_cases hx : p x
    · simp [updateFirst, hx, List.find?_cons_of_pos, hf]
    · simp only [updateFirst, if_neg hx, List.find?_cons_of_neg _ hx]
      exact ih

/-! ### Claim theorems -/

/-- C3: decide_action returns KEEP exactly when the metadata entry of the
record dict is itself a dict whose type entry is the string preference or
whose important entry is the boolean True; every other input, including a
missing metadata entry, a non-dict metadata value, important set to the
string yes and important set to the int 1, yields DISCARD. -/
theorem decide_action_keep_iff :
    (∀ memory_data : List (String × PyVal),
      (MemoryLibrarian.decide_action memory_data = "KEEP" ↔
        (∃ d, dictGet "metadata" memory_data = some (PyVal.dict d) ∧
          (dictGet "type" d = some (PyVal.str "preference") ∨
           dictGet "important" d = some (PyVal.bool true)))) ∧
      (MemoryLibrarian.decide_action memory_data = "KEEP" ∨
       MemoryLibrarian.decide_action memory_data = "DISCARD")) ∧
    MemoryLibrarian.decide_action [] = "DISCARD" ∧
    MemoryLibrarian.decide_action
      [("metadata", PyVal.dict [("important", PyVal.str "yes")])] = "DISCARD" ∧
    MemoryLibrarian.decide_action
      [("metadata", PyVal.dict [("important", PyVal.int 1)])] = "DISCARD" := by
  refine ⟨?_, rfl, rfl, rfl⟩
  intro memory_data
  have hmeta : MemoryLibrarian.decide_action memory_data =
      match (dictGet "metadata" memory_data).getD (PyVal.dict []) with
      | PyVal.dict d =>
        if optEqStr (dictGet "type" d) "preference" then "KEEP"
        else if optIsTrue (dictGet "important" d) then "KEEP"
        else "DISCARD"
      | _ => "DISCARD" := by
    by_cases hemp : memory_data.isEmpty
    · have h0 : memory_data = [] := by
        cases memory_data with
        | nil => rfl
        | cons a l => simp [List.isEmpty] at hemp
      subst h0
      rfl
    · simp [MemoryLibrarian.decide_action, hemp]
  cases hget : dictGet "metadata" memory_data with
  | none =>
    have hda : MemoryLibrarian.decide_action memory_data = "DISCARD" := by
      rw [hmeta, hget]
      rfl
    rw [hda]
    refine ⟨⟨fun h => absurd h (by decide), ?_⟩, Or.inr rfl⟩
    rintro ⟨d2, hd2, -⟩
    exact Option.noConfusion hd2
  | some v =>
    cases v with
    | dict d =>
      have hda : MemoryLibrarian.decide_action memory_data =
          if optEqStr (dictGet "type" d) "preference" then "KEEP"
          else if optIsTrue (dictGet "important" d) then "KEEP"
          else "DISCARD" := by
        rw [hmeta, hget]
        rfl
      rw [hda]
      constructor
      · constructor
        · intro hk
          by_cases h1 : optEqStr (dictGet "type" d) "preference" = true
          · exact ⟨d, rfl, Or.inl ((optEqStr_iff _ _).mp h1)⟩
          · by_cases h2 : optIsTrue (dictGet "important" d) = true
            · exact ⟨d, rfl, Or.inr ((optIsTrue_iff _).mp h2)⟩
            · rw [if_neg h1, if_neg h2] at hk
              exact absurd hk (by decide)
        · rintro ⟨d2, hd2, hor⟩
          have hdd : d = d2 := PyVal.dict.inj (Option.some.inj hd2)
          subst hdd
          rcases hor with h1 | h2
          · rw [if_pos ((optEqStr_iff _ _).mpr h1)]
          · by_cases hp : optEqStr (dictGet "type" d) "preference" = true
            · rw [if_pos hp]
            · rw [if_neg hp, if_pos ((optIsTrue_iff _).mpr h2)]
      · by_cases h1 : optEqStr (dictGet "type" d) "preference" = true
        · exact Or.inl (by rw [if_pos h1])
        · by_cases h2 : optIsTrue (dictGet "important" d) = true
          · exact Or.inl (by rw [if_neg h1, if_pos h2])
          · exact Or.inr (by rw [if_neg h1, if_neg h2])
    | str s =>
      have hda : MemoryLibrarian.decide_action memory_data = "DISCARD" := by
        rw [hmeta, hget]
        rfl
      rw [hda]
      refine ⟨⟨fun h => absurd h (by decide), ?_⟩, Or.inr rfl⟩
      rintro ⟨d2, hd2, -⟩
      exact PyVal.noConfusion (Option.some.inj hd2)
    | bool b =>
      have hda : MemoryLibrarian.decide_action memory_data = "DISCARD" := by
        rw [hmeta, hget]
        rfl
      rw [hda]
      refine ⟨⟨fun h => absurd h (by decide), ?_⟩, Or.inr rfl⟩
      rintro ⟨d2, hd2, -⟩
      exact PyVal.noConfusion (Option.some.inj hd2)
    | int n =>
      have hda : MemoryLibrarian.decide_action memory_data = "DISCARD" := by
        rw [hmeta, hget]
        rfl
      rw [hda]
      refine ⟨⟨fun h => absurd h (by decide), ?_⟩, Or.inr rfl⟩
      rintro ⟨d2, hd2, -⟩
      exact PyVal.noConfusion (Option.some.inj hd2)
    | none =>
      have hda : MemoryLibrarian.decide_action memory_data = "DISCARD" := by
        rw [hmeta, hget]
        rfl
      rw [hda]
      refine ⟨⟨fun h => absurd h (by decide), ?_⟩, Or.inr rfl⟩
      rintro ⟨d2, hd2, -⟩
      exact PyVal.noConfusion (Option.some.inj hd2)
    | list xs =>
      have hda : MemoryLibrarian.decide_action memory_data = "DISCARD" := by
        rw [hmeta, hget]
        rfl
      rw [hda]
      refine ⟨⟨fun h => absurd h (by decide), ?_⟩, Or.inr rfl⟩
      rintro ⟨d2, hd2, -⟩
      exact PyVal.noConfusion (Option.some.inj hd2)

/-- C9: purge_unimportant is report-only: the library after the call is the
library before it, every record retrievable before is retrievable unchanged
after, and the id list is untouched, so nothing is deleted. -/
theorem purge_unimportant_no_mutation (memories : MemDict) :
    (MemoryLibrarian.purge_unimportant memories).1 = memories ∧
    (∀ memory_id,
      MemoryLibrary.retrieve (MemoryLibrarian.purge_unimportant memories).1 memory_id =
        MemoryLibrary.retrieve memories memory_id) ∧
    MemoryLibrary.list_all_ids (MemoryLibrarian.purge_unimportant memories).1 =
      MemoryLibrary.list_all_ids memories :=
  ⟨rfl, fun _ => rfl, rfl⟩

/-- C6: when the disk write fails, PersistentMemoryLibrary.store surfaces
persistFailed to the caller and the in-memory mutation is not rolled back:
the record is still present and retrievable afterwards. -/
theorem persist_failed_no_rollback (memories : MemDict) (memory_id content : String)
    (metadata : List (String × PyVal)) (now : Nat) :
    (PersistentMemoryLibrary.store memories false memory_id content metadata now).2 =
      Except.error PersistentMemoryLibrary.PersistError.persistFailed ∧
    MemoryLibrary.retrieve
        (PersistentMemoryLibrary.store memories false memory_id content metadata now).1
        memory_id =
      some { content := content, metadata := metadata, timestamp := now } :=
  ⟨rfl, dictGet_dictSet_self _ _ _⟩

/-- C4: reopening a persistent store from the backing file just written
yields, for every id stored in it, a record identical in content, metadata
and timestamp to the one stored. -/
theorem persistent_roundtrip (memories : MemDict) (memory_id : String) (m : Memory)
    (h : MemoryLibrary.retrieve memories memory_id = some m) :
    MemoryLibrary.retrieve
      (PersistentMemoryLibrary.load_from_disk
        (some (PersistentMemoryLibrary.save_to_disk memories))) memory_id = some m := by
  rw [load_from_disk_save_to_disk]
  exact h

theorem persistent_roundtrip_witness :
    MemoryLibrary.retrieve
      (PersistentMemoryLibrary.load_from_disk
        (some (PersistentMemoryLibrary.save_to_disk
          [("memory_1", { content := "I prefer coffee", metadata := [("important", PyVal.bool true)], timestamp := 42 })])))
      "memory_1" =
      some { content := "I prefer coffee", metadata := [("important", PyVal.bool true)], timestamp := 42 } :=
  persistent_roundtrip
    [("memory_1", { content := "I prefer coffee", metadata := [("important", PyVal.bool true)], timestamp := 42 })]
    "memory_1"
    { content := "I prefer coffee", metadata := [("important", PyVal.bool true)], timestamp := 42 }
    rfl

/-- C7: searching with the empty string, the only falsy value of the query
type, returns every record of the store in iteration order. -/
theorem search_empty_query_matches_all (memories : MemDict)
    (h : (memories.map (fun p => p.1)).Nodup) :
    SearchableMemoryArchiver.search_memories memories "" =
      memories.map (fun p => p.2) := by
  rw [search_memories_eq_filter memories "" h]
  apply List.filter_eq_self.mpr
  intro m _
  exact containsSub_nil (pyLower m.content)

theorem search_empty_query_matches_all_witness :
    SearchableMemoryArchiver.search_memories
      [("memory_1", { content := "alpha", metadata := [], timestamp := 0 }),
       ("memory_2", { content := "beta", metadata := [], timestamp := 1 })] "" =
      [{ content := "alpha", metadata := [], timestamp := 0 },
       { content := "beta", metadata := [], timestamp := 1 }] :=
  search_empty_query_matches_all
    [("memory_1", { content := "alpha", metadata := [], timestamp := 0 }),
     ("memory_2", { content := "beta", metadata := [], timestamp := 1 })]
    (by decide)

/-- C8: search returns exactly the records whose lowered content contains
the lowered query as a substring, in the store iteration order; the query
COFFEE matches the oat milk record and the query tea does not. -/
theorem search_substring_spec (memories : MemDict) (query : String)
    (h : (memories.map (fun p => p.1)).Nodup) :
    SearchableMemoryArchiver.search_memories memories query =
      (memories.map (fun p => p.2)).filter
        (fun m => decide (pyLower query <:+: pyLower m.content)) ∧
    SearchableMemoryArchiver.search_memories
      [("memory_1", { content := "I prefer coffee with oat milk", metadata := [], timestamp := 0 })]
      "COFFEE" =
      [{ content := "I prefer coffee with oat milk", metadata := [], timestamp := 0 }] ∧
    SearchableMemoryArchiver.search_memories
      [("memory_1", { content := "I prefer coffee with oat milk", metadata := [], timestamp := 0 })]
      "tea" = [] := by
  refine ⟨?_, rfl, rfl⟩
  rw [search_memories_eq_filter memories query h]
  apply List.filter_congr
  intro m _
  exact containsSub_eq_decide (pyLower query) (pyLower m.content)

theorem search_substring_spec_witness :
    SearchableMemoryArchiver.search_memories
      [("memory_1", { content := "I prefer coffee with oat milk", metadata := [], timestamp := 0 })]
      "COFFEE" =
      [{ content := "I prefer coffee with oat milk", metadata := [], timestamp := 0 }] :=
  (search_substring_spec
    [("memory_1", { content := "I prefer coffee with oat milk", metadata := [], timestamp := 0 })]
    "COFFEE" (by decide)).2.1

/-- C5: saving as one registered platform rebinds only that platform entry;
a distinct platform keeps exactly its previous store, and so the fresh
record id shows up in that other platform's id list only if it was already
there before the call. -/
theorem save_isolation (platform_memories : List (String × MemDict))
    (alpha beta content memory_type : String) (important : Bool) (now : Nat)
    (pm2 : List (String × MemDict)) (memory_id : String)
    (hne : beta ≠ alpha)
    (hsave : PlatformMemoryManager.save_platform_memory platform_memories alpha content
      memory_type important now = Except.ok (pm2, memory_id)) :
    dictGet beta pm2 = dictGet beta platform_memories ∧
    (∀ betaMem, dictGet beta platform_memories = some betaMem →
      memory_id ∉ MemoryLibrary.list_all_ids betaMem →
      ∀ betaMem2, dictGet beta pm2 = some betaMem2 →
        memory_id ∉ MemoryLibrary.list_all_ids betaMem2) := by
  unfold PlatformMemoryManager.save_platform_memory at hsave
  cases halpha : dictGet alpha platform_memories with
  | none =>
    rw [halpha] at hsave
    exact absurd hsave (by simp)
  | some alphaMem =>
    rw [halpha] at hsave
    simp only [Except.ok.injEq, Prod.mk.injEq] at hsave
    obtain ⟨hpm, -⟩ := hsave
    subst hpm
    refine ⟨dictGet_dictSet_ne alpha beta _ _ hne, ?_⟩
    intro betaMem hb hnotin betaMem2 hb2
    rw [dictGet_dictSet_ne alpha beta _ _ hne, hb] at hb2
    have hbb : betaMem = betaMem2 := Option.some.inj hb2
    subst hbb
    exact hnotin

theorem save_isolation_witness :
    dictGet "claude"
        [("chatgpt",
          [("memory_1",
            ({ content := "private note",
               metadata := [("type", PyVal.str "general"),
                            ("important", PyVal.bool false),
                            ("source", PyVal.str "ai_autonomous")],
               timestamp := 7 } : Memory))]),
         ("claude", ([] : MemDict))] =
      dictGet "claude" [("chatgpt", ([] : MemDict)), ("claude", ([] : MemDict))] :=
  (save_isolation [("chatgpt", []), ("claude", [])] "chatgpt" "claude" "private note"
    "general" false 7
    [("chatgpt",
      [("memory_1",
        { content := "private note",
          metadata := [("type", PyVal.str "general"),
                       ("important", PyVal.bool false),
                       ("source", PyVal.str "ai_autonomous")],
          timestamp := 7 })]),
     ("claude", [])] "memory_1" (by decide) rfl).1

/-- C2 counterexample: accepting a concrete pending suggestion stores a
record whose metadata says suggested_by human under the key
original_suggestion_id; it does not carry suggested_by external nor any
source_suggestion key, so the metadata shape the claim states is not the
one the code writes. -/
theorem accept_metadata_counterexample :
    ∃ m : Memory,
      MemoryLibrary.retrieve
        (SovereignCollaborationSystem.ai_decide_on_suggestion
          [{ suggestion_id := "suggest_1", content := "poetry book plan",
             reason := some "central", urgency := "high", timestamp := "t0",
             status := "pending", decided_by := Option.none,
             decision_reason := Option.none }]
          [] "chatgpt" "suggest_1" "ACCEPT" (some "relevant") 5).2.1 "shared_1" = some m ∧
      dictGet "suggested_by" m.metadata = some (PyVal.str "human") ∧
      dictGet "suggested_by" m.metadata ≠ some (PyVal.str "external") ∧
      dictGet "source_suggestion" m.metadata = Option.none ∧
      dictGet "original_suggestion_id" m.metadata = some (PyVal.str "suggest_1") :=
  ⟨_, rfl, rfl,
    fun h => absurd (PyVal.str.inj (Option.some.inj h)) (by decide),
    rfl, rfl⟩

/-- C2 amended: resolving a pending suggestion with ACCEPT appends exactly
one new record to the shared store, under the size-derived id (assumed not
already taken, as holds for every store this system builds), carrying the
suggestion content and the metadata type collaboration, suggested_by human,
accepted_by the platform id, acceptance_reason the reason and
original_suggestion_id the suggestion id; the suggestion itself becomes
accepted with decided_by and decision_reason filled in. -/
theorem accept_pending_suggestion (pending_suggestions : List Suggestion)
    (shared_memories : MemDict) (platform_id suggestion_id : String)
    (reason : Option String) (now : Nat) (s : Suggestion) (platform_name : String)
    (hfind : pending_suggestions.find? (fun t => t.suggestion_id == suggestion_id) = some s)
    (hplat : dictGet platform_id platforms = some platform_name)
    (hpending : s.status = "pending")
    (hfresh : ∀ p ∈ shared_memories,
      p.1 ≠ "shared_" ++ toString (shared_memories.length + 1)) :
    (SovereignCollaborationSystem.ai_decide_on_suggestion pending_suggestions
        shared_memories platform_id suggestion_id "ACCEPT" reason now).2.2 =
      DecideResult.accepted ("shared_" ++ toString (shared_memories.length + 1)) ∧
    (SovereignCollaborationSystem.ai_decide_on_suggestion pending_suggestions
        shared_memories platform_id suggestion_id "ACCEPT" reason now).2.1 =
      shared_memories ++
        [("shared_" ++ toString (shared_memories.length + 1),
          { content := s.content,
            metadata := [("type", PyVal.str "collaboration"),
                         ("suggested_by", PyVal.str "human"),
                         ("accepted_by", PyVal.str platform_id),
                         ("acceptance_reason", optStr reason),
                         ("original_suggestion_id", PyVal.str suggestion_id)],
            timestamp := now })] ∧
    (SovereignCollaborationSystem.ai_decide_on_suggestion pending_suggestions
        shared_memories platform_id suggestion_id "ACCEPT" reason now).1.find?
        (fun t => t.suggestion_id == suggestion_id) =
      some { s with status := "accepted", decided_by := some platform_id,
                    decision_reason := reason } := by
  have hstep : SovereignCollaborationSystem.ai_decide_on_suggestion pending_suggestions
      shared_memories platform_id suggestion_id "ACCEPT" reason now =
      (updateFirst (fun t => t.suggestion_id == suggestion_id)
        (fun t =>
          { t with
            status := "accepted", decided_by := some platform_id,
            decision_reason := reason }) pending_suggestions,
       MemoryLibrary.store shared_memories
         ("shared_" ++ toString (shared_memories.length + 1)) s.content
         [("type", PyVal.str "collaboration"),
          ("suggested_by", PyVal.str "human"),
          ("accepted_by", PyVal.str platform_id),
          ("acceptance_reason", optStr reason),
          ("original_suggestion_id", PyVal.str suggestion_id)] now,
       DecideResult.accepted ("shared_" ++ toString (shared_memories.length + 1))) := by
    simp only [SovereignCollaborationSystem.ai_decide_on_suggestion, hfind, hplat]
    rw [if_pos (show pyUpper "ACCEPT" = "ACCEPT" from rfl)]
  refine ⟨?_, ?_, ?_⟩
  · rw [hstep]
  · rw [hstep]
    exact dictSet_eq_append _ _ _ hfresh
  · rw [hstep]
    have hupd := find?_updateFirst (fun t => t.suggestion_id == suggestion_id)
      (fun t =>
        { t with
          status := "accepted", decided_by := some platform_id,
          decision_reason := reason }) pending_suggestions (fun x => rfl)
    rw [hupd, hfind]
    rfl

theorem accept_pending_suggestion_witness :
    (SovereignCollaborationSystem.ai_decide_on_suggestion
        [{ suggestion_id := "suggest_1", content := "poetry book plan",
           reason := some "central", urgency := "high", timestamp := "t0",
           status := "pending", decided_by := Option.none,
           decision_reason := Option.none }]
        [] "chatgpt" "suggest_1" "ACCEPT" (some "relevant") 5).2.1 =
      [("shared_1",
        { content := "poetry book plan",
          metadata := [("type", PyVal.str "collaboration"),
                       ("suggested_by", PyVal.str "human"),
                       ("accepted_by", PyVal.str "chatgpt"),
                       ("acceptance_reason", PyVal.str "relevant"),
                       ("original_suggestion_id", PyVal.str "suggest_1")],
          timestamp := 5 })] :=
  (accept_pending_suggestion
    [{ suggestion_id := "suggest_1", content := "poetry book plan",
       reason := some "central", urgency := "high", timestamp := "t0",
       status := "pending", decided_by := Option.none,
       decision_reason := Option.none }]
    [] "chatgpt" "suggest_1" (some "relevant") 5
    { suggestion_id := "suggest_1", content := "poetry book plan",
      reason := some "central", urgency := "high", timestamp := "t0",
      status := "pending", decided_by := Option.none,
      decision_reason := Option.none }
    "ChatGPT" rfl rfl rfl (by simp)).2.1

/-- C10: any decision string whose uppercased form is not ACCEPT, for
example maybe, is treated as a rejection: the suggestion becomes rejected
with decided_by and decision_reason set, the result reports rejected, and
the shared store is left untouched. -/
theorem nonaccept_decision_rejects (pending_suggestions : List Suggestion)
    (shared_memories : MemDict) (platform_id suggestion_id decision : String)
    (reason : Option String) (now : Nat) (s : Suggestion) (platform_name : String)
    (hfind : pending_suggestions.find? (fun t => t.suggestion_id == suggestion_id) = some s)
    (hplat : dictGet platform_id platforms = some platform_name)
    (hpending : s.status = "pending")
    (hdec : pyUpper decision ≠ "ACCEPT") :
    (SovereignCollaborationSystem.ai_decide_on_suggestion pending_suggestions
        shared_memories platform_id suggestion_id decision reason now).2.1 =
      shared_memories ∧
    (SovereignCollaborationSystem.ai_decide_on_suggestion pending_suggestions
        shared_memories platform_id suggestion_id decision reason now).2.2 =
      DecideResult.rejected ∧
    (SovereignCollaborationSystem.ai_decide_on_suggestion pending_suggestions
        shared_memories platform_id suggestion_id decision reason now).1.find?
        (fun t => t.suggestion_id == suggestion_id) =
      some { s with status := "rejected", decided_by := some platform_id,
                    decision_reason := reason } := by
  have hstep : SovereignCollaborationSystem.ai_decide_on_suggestion pending_suggestions
      shared_memories platform_id suggestion_id decision reason now =
      (updateFirst (fun t => t.suggestion_id == suggestion_id)
        (fun t =>
          { t with
            status := "rejected", decided_by := some platform_id,
            decision_reason := reason }) pending_suggestions,
       shared_memories, DecideResult.rejected) := by
    simp only [SovereignCollaborationSystem.ai_decide_on_suggestion, hfind, hplat]
    rw [if_neg hdec]
  refine ⟨?_, ?_, ?_⟩
  · rw [hstep]
  · rw [hstep]
  · rw [hstep]
    have hupd := find?_updateFirst (fun t => t.suggestion_id == suggestion_id)
      (fun t =>
        { t with
          status := "rejected", decided_by := some platform_id,
          decision_reason := reason }) pending_suggestions (fun x => rfl)
    rw [hupd, hfind]
    rfl

theorem nonaccept_decision_rejects_witness :
    (SovereignCollaborationSystem.ai_decide_on_suggestion
        [{ suggestion_id := "suggest_2", content := "coffee with oat milk",
           reason := some "preference", urgency := "low", timestamp := "t1",
           status := "pending", decided_by := Option.none,
           decision_reason := Option.none }]
        [] "deepseek" "suggest_2" "maybe" (some "unsure") 9).2.2 =
      DecideResult.rejected :=
  (nonaccept_decision_rejects
    [{ suggestion_id := "suggest_2", content := "coffee with oat milk",
       reason := some "preference", urgency := "low", timestamp := "t1",
       status := "pending", decided_by := Option.none,
       decision_reason := Option.none }]
    [] "deepseek" "suggest_2" "maybe" (some "unsure") 9
    { suggestion_id := "suggest_2", content := "coffee with oat milk",
      reason := some "preference", urgency := "low", timestamp := "t1",
      status := "pending", decided_by := Option.none,
      decision_reason := Option.none }
    "DeepSeek" rfl rfl rfl (by decide)).2.1

/-- C1: the code enforces no AlreadyResolved rule.  Resolving a suggestion
whose status is already accepted succeeds again instead of failing: it
reports accepted once more, appends a second record to the shared store,
and overwrites decided_by and decision_reason of the suggestion. -/
theorem already_resolved_not_enforced :
    SovereignCollaborationSystem.ai_decide_on_suggestion
      [{ suggestion_id := "suggest_1", content := "poetry book plan",
         reason := some "central", urgency := "high", timestamp := "t0",
         status := "accepted", decided_by := some "claude",
         decision_reason := some "first pass" }]
      [("shared_1",
        { content := "poetry book plan", metadata := [], timestamp := 5 })]
      "chatgpt" "suggest_1" "ACCEPT" (some "again") 6 =
    ([{ suggestion_id := "suggest_1", content := "poetry book plan",
        reason := some "central", urgency := "high", timestamp := "t0",
        status := "accepted", decided_by := some "chatgpt",
        decision_reason := some "again" }],
     [("shared_1",
       { content := "poetry book plan", metadata := [], timestamp := 5 }),
      ("shared_2",
       { content := "poetry book plan",
         metadata := [("type", PyVal.str "collaboration"),
                      ("suggested_by", PyVal.str "human"),
                      ("accepted_by", PyVal.str "chatgpt"),
                      ("acceptance_reason", PyVal.str "again"),
                      ("original_suggestion_id", PyVal.str "suggest_1")],
         timestamp := 6 })],
     DecideResult.accepted "shared_2") := rfl

end MemorySystem
